import Mathlib

/-!
Shallow embedding of the pvpbot-stats dashboard client
(`script.js`, richest revision kept as `src/unnamed/part_000`), together
with a spec-modelled ingestion service for the backend (whose `server.py`
is not part of the sources; only its documentation is).

Conventions of the embedding:
* JS numbers holding millisecond timestamps and counter values are `Int`
  (all arithmetic on them in the source is integral); the interpolation in
  `animateValue` genuinely divides, so it is embedded over `ℚ`.
* JS arrays are `List`s; `arr[i] || 0` is `(l.get? i).getD 0`
  (an out-of-range access yields `undefined`, which `|| 0` turns into `0`;
  on in-range integer values `|| 0` is the identity except on `0`, where it
  also returns `0`).
* The browser state mutated by the handlers (`historyData`,
  `lastLoadedTimestamp`, `filteredDataCache`/`lastFilterTime`,
  `apiAvailable`/`consecutiveFailures` and the banner) is passed
  explicitly; each handler becomes a state-transition function.
* Locale rendering of axis labels (`toLocaleTimeString` /
  `toLocaleDateString`) is abstracted: a label is the pair of the chosen
  format and the raw timestamp, which is exactly the information the
  source feeds into the formatter.
-/

namespace PvpbotStats

/-- The in-memory history series `historyData` of the client
(timestamps in milliseconds plus four parallel value arrays). -/
structure HistoryData where
  timestamps : List Int
  servers : List Int
  bots : List Int
  spawned : List Int
  killed : List Int
deriving DecidableEq, Repr

/-- The initial value of `historyData`: five empty arrays. -/
def emptyHistoryData : HistoryData := ⟨[], [], [], [], []⟩

/-- A parsed `/api/history` JSON payload: `timestamps` is present
(the caller checks `data.timestamps && data.timestamps.length > 0`),
the four value arrays may be absent (`undefined`). Timestamps here are in
seconds, as delivered by the backend. -/
structure FetchedHistory where
  timestamps : List Int
  servers : Option (List Int)
  bots : Option (List Int)
  spawned : Option (List Int)
  killed : Option (List Int)
deriving DecidableEq, Repr

/-- Read `arr[i] || 0`: out-of-range (`undefined`) becomes `0`. -/
def getOr0 (l : List Int) (i : Nat) : Int := (l.get? i).getD 0

/-- The `newData` object built inside `loadHistory`: timestamps converted
from seconds to milliseconds, value arrays defaulted to `[]`
(`data.servers || []`, …). -/
def normalizeFetched (d : FetchedHistory) : HistoryData :=
  { timestamps := d.timestamps.map (· * 1000)
    servers := d.servers.getD []
    bots := d.bots.getD []
    spawned := d.spawned.getD []
    killed := d.killed.getD [] }

/-- The incremental-update loop of `loadHistory` (part_000 lines 104-115):
walks the fetched arrays by index `i` and appends entry `i` to every array
of `historyData` when `newData.timestamps[i] > lastLoadedTimestamp`;
`lastLoadedTimestamp` is fixed for the whole loop. The first list argument
is the not-yet-visited suffix of `newData.timestamps`, `i` its starting
index, and `added` the running `addedPoints` counter. -/
def mergeAux (new : HistoryData) (last : Int) :
    List Int → Nat → HistoryData → Nat → HistoryData × Nat
  | [], _, h, added => (h, added)
  | t :: ts, i, h, added =>
    if last < t then
      mergeAux new last ts (i + 1)
        { timestamps := h.timestamps ++ [t]
          servers := h.servers ++ [getOr0 new.servers i]
          bots := h.bots ++ [getOr0 new.bots i]
          spawned := h.spawned ++ [getOr0 new.spawned i]
          killed := h.killed ++ [getOr0 new.killed i] }
        (added + 1)
    else
      mergeAux new last ts (i + 1) h added

/-- The whole incremental merge of `loadHistory`: returns the updated
`historyData` and the `addedPoints` counter. -/
def mergeHistory (h : HistoryData) (last : Int) (new : HistoryData) :
    HistoryData × Nat :=
  mergeAux new last new.timestamps 0 h 0

/-- Specification helper: the `(timestamp, index)` pairs the merge loop
keeps, in order. -/
def keptPairs (last : Int) : List Int → Nat → List (Int × Nat)
  | [], _ => []
  | t :: ts, i =>
    if last < t then (t, i) :: keptPairs last ts (i + 1)
    else keptPairs last ts (i + 1)

/-- The label-format branch chosen by `filterDataByPeriod` for a period:
time-of-day for `10m`/`30m`/`1h`/`1d`, month-day-hour for `1w`,
month-day otherwise. -/
inductive LabelKind where
  | timeHM
  | dayHour
  | monthDay
deriving DecidableEq, Repr

/-- Which locale format the source picks for the labels of a period. -/
def labelKindFor (period : String) : LabelKind :=
  if period = "10m" ∨ period = "30m" ∨ period = "1h" then .timeHM
  else if period = "1d" then .timeHM
  else if period = "1w" then .dayHour
  else .monthDay

/-- An axis label: the chosen format together with the timestamp handed to
the locale formatter (the formatter itself is outside the embedding). -/
def mkLabel (period : String) (ts : Int) : LabelKind × Int :=
  (labelKindFor period, ts)

/-- The `filtered` object produced by `filterDataByPeriod`. -/
structure Filtered where
  timestamps : List Int
  servers : List Int
  bots : List Int
  labels : List (LabelKind × Int)
deriving DecidableEq, Repr

/-- The freshly-allocated empty `filtered` object. -/
def emptyFiltered : Filtered := ⟨[], [], [], []⟩

/-- The window length `now - cutoff` of each `case` of the `switch` in
`filterDataByPeriod` (part_000 lines 242-274), in milliseconds; an
unrecognized period takes the `default` branch (one hour). -/
def durationOf (period : String) : Int :=
  if period = "10m" then 10 * 60 * 1000
  else if period = "30m" then 30 * 60 * 1000
  else if period = "1h" then 60 * 60 * 1000
  else if period = "1d" then 24 * 60 * 60 * 1000
  else if period = "1w" then 7 * 24 * 60 * 60 * 1000
  else if period = "1m" then 30 * 24 * 60 * 60 * 1000
  else if period = "1y" then 365 * 24 * 60 * 60 * 1000
  else 60 * 60 * 1000

/-- The `decimationFactor` of each `case` of the same `switch`;
the `default` branch uses `1`. -/
def decimationFactor (period : String) : Nat :=
  if period = "10m" then 1
  else if period = "30m" then 1
  else if period = "1h" then 1
  else if period = "1d" then 6
  else if period = "1w" then 24
  else if period = "1m" then 120
  else if period = "1y" then 720
  else 1

/-- The period names the `switch` recognizes. -/
def knownPeriods : List String := ["10m", "30m", "1h", "1d", "1w", "1m", "1y"]

/-- The filtering/decimation loop of `filterDataByPeriod`
(part_000 lines 289-313): `i` indexes `historyData`, `counter` is
`pointCounter` (incremented once per in-window point); a point is kept when
`historyData.timestamps[i] >= cutoff` and `pointCounter % decimationFactor
=== 0`, pushing `timestamps[i]`, `servers[i] || 0`, `bots[i] || 0` and a
label. The first argument is the unvisited suffix of
`historyData.timestamps`. -/
def computeLoop (h : HistoryData) (period : String) (cutoff : Int) (d : Nat) :
    List Int → Nat → Nat → Filtered
  | [], _, _ => emptyFiltered
  | t :: ts, i, counter =>
    if cutoff ≤ t then
      let rest := computeLoop h period cutoff d ts (i + 1) (counter + 1)
      if counter % d = 0 then
        { timestamps := t :: rest.timestamps
          servers := getOr0 h.servers i :: rest.servers
          bots := getOr0 h.bots i :: rest.bots
          labels := mkLabel period t :: rest.labels }
      else rest
    else
      computeLoop h period cutoff d ts (i + 1) counter

/-- The recomputation `filterDataByPeriod` performs on a cache miss over a
non-empty history, at wall-clock time `now`. -/
def computeFilter (period : String) (now : Int) (h : HistoryData) : Filtered :=
  computeLoop h period (now - durationOf period) (decimationFactor period)
    h.timestamps 0 0

/-- What `filterDataByPeriod` hands back when it does not use the cache:
the early `return filtered` on empty history, otherwise the computed
result. -/
def freshFilter (period : String) (now : Int) (h : HistoryData) : Filtered :=
  if h.timestamps.isEmpty then emptyFiltered else computeFilter period now h

/-- The client-side cache: `filteredDataCache` (period-keyed entries) and
the shared `lastFilterTime`. -/
structure FilterCache where
  entries : List (String × Filtered)
  lastFilterTime : Int
deriving DecidableEq, Repr

/-- Association-list lookup, modelling a JS object property read. -/
def findEntry {α : Type} (k : String) : List (String × α) → Option α
  | [] => none
  | (k₂, v) :: l => if k = k₂ then some v else findEntry k l

/-- The function `filterDataByPeriod` (part_000 lines 231-322) as a state transition on
the cache: returns the cached entry when one exists and
`now - lastFilterTime < 1000`; otherwise recomputes — returning the empty
object without touching the cache when the history is empty, and storing
the result under the period with `lastFilterTime = now` otherwise. -/
def filterDataByPeriod (period : String) (now : Int) (h : HistoryData)
    (cache : FilterCache) : Filtered × FilterCache :=
  let recompute : Filtered × FilterCache :=
    if h.timestamps.isEmpty then (emptyFiltered, cache)
    else
      let f := computeFilter period now h
      (f, ⟨(period, f) :: cache.entries, now⟩)
  match findEntry period cache.entries with
  | some cached =>
    if now - cache.lastFilterTime < 1000 then (cached, cache) else recompute
  | none => recompute

/-- The mutable client state touched by `loadHistory` and
`filterDataByPeriod`. -/
structure ClientState where
  historyData : HistoryData
  lastLoadedTimestamp : Int
  cache : FilterCache
deriving DecidableEq, Repr

/-- The function `loadHistory` (part_000 lines 82-134) on a successful HTTP response
whose body parsed to `d`. When `d.timestamps` is empty the function only
warns and returns `false`. On the first load (`historyData` empty) the
whole normalized payload is installed and the cursor set to its last
timestamp; otherwise the incremental merge runs and, when it added at
least one point, the cursor advances to the last timestamp of the merged
series. The boolean is the return value of `loadHistory`. -/
def loadHistoryOk (st : ClientState) (d : FetchedHistory) :
    ClientState × Bool :=
  if d.timestamps.isEmpty then (st, false)
  else
    let newData := normalizeFetched d
    if st.historyData.timestamps.isEmpty then
      ({ st with
          historyData := newData
          lastLoadedTimestamp := newData.timestamps.getLastD 0 }, true)
    else
      let m := mergeHistory st.historyData st.lastLoadedTimestamp newData
      if 0 < m.2 then
        ({ st with
            historyData := m.1
            lastLoadedTimestamp := m.1.timestamps.getLastD 0 }, true)
      else
        ({ st with historyData := m.1 }, true)

/-- Keep the entries whose running counter is a multiple of `d`, starting
the counter at the second argument. -/
def everyNthAux {α : Type} (d : Nat) : Nat → List α → List α
  | _, [] => []
  | c, a :: l => if c % d = 0 then a :: everyNthAux d (c + 1) l
                 else everyNthAux d (c + 1) l

/-- Keep every `d`-th entry of a list (positions `0, d, 2d, …`). -/
def everyNth {α : Type} (d : Nat) (l : List α) : List α := everyNthAux d 0 l

/-! ### Structural lemmas about the merge loop -/

lemma mergeAux_spec (new : HistoryData) (last : Int) :
    ∀ (ts : List Int) (i : Nat) (h : HistoryData) (added : Nat),
      mergeAux new last ts i h added =
        ({ timestamps := h.timestamps ++ (keptPairs last ts i).map Prod.fst
           servers := h.servers ++
             (keptPairs last ts i).map (fun p => getOr0 new.servers p.2)
           bots := h.bots ++
             (keptPairs last ts i).map (fun p => getOr0 new.bots p.2)
           spawned := h.spawned ++
             (keptPairs last ts i).map (fun p => getOr0 new.spawned p.2)
           killed := h.killed ++
             (keptPairs last ts i).map (fun p => getOr0 new.killed p.2) },
         added + (keptPairs last ts i).length) := by
  intro ts
  induction ts with
  | nil => intro i h added; simp [mergeAux, keptPairs]
  | cons t ts ih =>
    intro i h added
    by_cases hc : last < t
    · simp only [mergeAux, keptPairs, if_pos hc, ih, List.map_cons,
        List.length_cons, Prod.mk.injEq, HistoryData.mk.injEq]
      refine ⟨⟨?_, ?_, ?_, ?_, ?_⟩, by omega⟩ <;> simp [List.append_assoc]
    · simp only [mergeAux, keptPairs, if_neg hc, ih]

lemma keptPairs_map_fst (last : Int) :
    ∀ (ts : List Int) (i : Nat),
      (keptPairs last ts i).map Prod.fst
        = ts.filter (fun t => decide (last < t)) := by
  intro ts
  induction ts with
  | nil => intro i; simp [keptPairs]
  | cons t ts ih =>
    intro i
    by_cases hc : last < t <;>
      simp [keptPairs, List.filter_cons, hc, ih]

/-- The merge `mergeHistory` in closed form: every array is the old one with the
kept fetched entries appended, and `addedPoints` counts the kept
entries. -/
lemma mergeHistory_eq (h : HistoryData) (last : Int) (new : HistoryData) :
    mergeHistory h last new =
      ({ timestamps :=
            h.timestamps ++ (keptPairs last new.timestamps 0).map Prod.fst
         servers := h.servers ++
            (keptPairs last new.timestamps 0).map
              (fun p => getOr0 new.servers p.2)
         bots := h.bots ++
            (keptPairs last new.timestamps 0).map
              (fun p => getOr0 new.bots p.2)
         spawned := h.spawned ++
            (keptPairs last new.timestamps 0).map
              (fun p => getOr0 new.spawned p.2)
         killed := h.killed ++
            (keptPairs last new.timestamps 0).map
              (fun p => getOr0 new.killed p.2) },
       (keptPairs last new.timestamps 0).length) := by
  rw [mergeHistory, mergeAux_spec]
  simp

/-- The merged timestamps are the old ones followed by the fetched ones
that are strictly above the cursor. -/
lemma mergeHistory_timestamps (h : HistoryData) (last : Int)
    (new : HistoryData) :
    (mergeHistory h last new).1.timestamps
      = h.timestamps ++ new.timestamps.filter (fun t => decide (last < t)) := by
  rw [mergeHistory, mergeAux_spec, keptPairs_map_fst]

/-- The `addedPoints` counter counts exactly the kept fetched points. -/
lemma mergeHistory_added (h : HistoryData) (last : Int) (new : HistoryData) :
    (mergeHistory h last new).2
      = (new.timestamps.filter (fun t => decide (last < t))).length := by
  rw [mergeHistory, mergeAux_spec, ← keptPairs_map_fst last new.timestamps 0,
    List.length_map, Nat.zero_add]

/-- In a strictly increasing list every element is at most the last one. -/
lemma pairwise_le_getLast :
    ∀ (l : List Int), l.Pairwise (· < ·) →
      ∀ x ∈ l, ∀ y, l.getLast? = some y → x ≤ y := by
  intro l
  induction l with
  | nil => intro _ x hx; cases hx
  | cons a l ih =>
    intro hp x hx y hy
    rcases List.pairwise_cons.mp hp with ⟨ha, hl⟩
    cases l with
    | nil =>
      simp only [List.getLast?_singleton, Option.some.injEq] at hy
      rcases List.mem_singleton.mp hx with rfl
      exact hy.le
    | cons b t =>
      rw [List.getLast?_cons_cons] at hy
      have hymem : y ∈ b :: t := by
        rcases List.mem_getLast?_eq_getLast (Option.mem_def.mpr hy) with ⟨hne, hyeq⟩
        exact hyeq ▸ List.getLast_mem hne
      rcases List.mem_cons.mp hx with rfl | hx₂
      · exact le_of_lt (ha y hymem)
      · exact ih hl x hx₂ y hy

/-- Merging a strictly increasing fetched batch into a strictly increasing
history whose last timestamp is the cursor keeps the series strictly
increasing. -/
lemma mergeHistory_sorted (h : HistoryData) (last : Int) (new : HistoryData)
    (hsort : h.timestamps.Pairwise (· < ·))
    (hlast : h.timestamps.getLast? = some last)
    (hnew : new.timestamps.Pairwise (· < ·)) :
    (mergeHistory h last new).1.timestamps.Pairwise (· < ·) := by
  rw [mergeHistory_timestamps]
  refine List.pairwise_append.mpr ⟨hsort, ?_, ?_⟩
  · exact hnew.sublist (List.filter_sublist _)
  · intro x hx y hy
    have hyl : last < y := by
      have := (List.mem_filter.mp hy).2
      exact of_decide_eq_true this
    exact lt_of_le_of_lt (pairwise_le_getLast _ hsort x hx last hlast) hyl

/-! ### Structural lemmas about the filter loop -/

lemma computeLoop_timestamps (h : HistoryData) (period : String)
    (cutoff : Int) (d : Nat) :
    ∀ (ts : List Int) (i counter : Nat),
      (computeLoop h period cutoff d ts i counter).timestamps
        = everyNthAux d counter (ts.filter (fun t => decide (cutoff ≤ t))) := by
  intro ts
  induction ts with
  | nil => intro i counter; simp [computeLoop, emptyFiltered, everyNthAux]
  | cons t ts ih =>
    intro i counter
    by_cases hw : cutoff ≤ t
    · by_cases hk : counter % d = 0 <;>
        simp [computeLoop, hw, hk, List.filter_cons, everyNthAux, ih]
    · simp [computeLoop, hw, List.filter_cons, ih]

lemma everyNthAux_one {α : Type} :
    ∀ (c : Nat) (l : List α), everyNthAux 1 c l = l := by
  intro c l
  induction l generalizing c with
  | nil => rfl
  | cons a l ih => simp [everyNthAux, Nat.mod_one, ih]

/-- Whenever the loop pushes, it pushes onto all four arrays, so the four
outputs always have equal lengths. -/
lemma computeLoop_lengths (h : HistoryData) (period : String)
    (cutoff : Int) (d : Nat) :
    ∀ (ts : List Int) (i counter : Nat),
      (computeLoop h period cutoff d ts i counter).servers.length
          = (computeLoop h period cutoff d ts i counter).timestamps.length ∧
        (computeLoop h period cutoff d ts i counter).bots.length
          = (computeLoop h period cutoff d ts i counter).timestamps.length ∧
        (computeLoop h period cutoff d ts i counter).labels.length
          = (computeLoop h period cutoff d ts i counter).timestamps.length := by
  intro ts
  induction ts with
  | nil => intro i counter; simp [computeLoop, emptyFiltered]
  | cons t ts ih =>
    intro i counter
    by_cases hw : cutoff ≤ t
    · by_cases hk : counter % d = 0 <;>
        simpa [computeLoop, hw, hk] using ih (i + 1) (counter + 1)
    · simpa [computeLoop, hw] using ih (i + 1) counter

/-! ### Availability state machine (`loadStats`) -/

/-- The availability bookkeeping of the client: `apiAvailable`,
`consecutiveFailures`, and whether the `api-status-banner` element is
currently visible (shown by `showApiBanner`, hidden by `hideApiBanner`).
`Degraded` in the vocabulary of the spec is `apiAvailable = false`. -/
structure ApiState where
  apiAvailable : Bool
  consecutiveFailures : Nat
  bannerVisible : Bool
deriving DecidableEq, Repr

/-- The state at script start: `apiAvailable = true`,
`consecutiveFailures = 0`, banner hidden. -/
def initialApiState : ApiState := ⟨true, 0, false⟩

/-- Outcome of the `fetch(BACKEND_URL)` at the top of `loadStats`:
`success` when the response arrives with `response.ok`, `failure` when the
fetch throws or `!response.ok` throws `Backend unavailable`. -/
inductive FetchOutcome where
  | success
  | failure
deriving DecidableEq, Repr

/-- One run of `loadStats` (part_000 lines 137-190) restricted to the
availability bookkeeping. On success, the state is reset (and the banner
hidden) only when `apiAvailable` was `false`. On failure the inner `catch`
increments `consecutiveFailures`, flips to unavailable and shows the
banner when the new count reaches `2` while still `apiAvailable`, and
fetches `FALLBACK_URL`; the returned boolean records that the fallback
source was used. -/
def loadStatsAvail (s : ApiState) : FetchOutcome → ApiState × Bool
  | .success =>
    if s.apiAvailable then (s, false)
    else (⟨true, 0, false⟩, false)
  | .failure =>
    if 2 ≤ s.consecutiveFailures + 1 ∧ s.apiAvailable then
      (⟨false, s.consecutiveFailures + 1, true⟩, true)
    else
      (⟨s.apiAvailable, s.consecutiveFailures + 1, s.bannerVisible⟩, true)

/-- Iterate `loadStats` over a sequence of backend-fetch outcomes. -/
def runStats (s : ApiState) (os : List FetchOutcome) : ApiState :=
  os.foldl (fun s o => (loadStatsAvail s o).1) s

/-! ### Live-value interpolation (`animateValue`) -/

/-- The `duration` constant of `animateValue`. -/
def animDuration : ℚ := 500

/-- The tick length (milliseconds) of the `setInterval` in
`animateValue`. -/
def animFrameMs : Nat := 16

/-- The step `increment = range / (duration / 16)` with
`range = endValue - startValue`. -/
def animIncrement (s e : ℚ) : ℚ := (e - s) / (animDuration / 16)

/-- The `setInterval` body of `animateValue`: add the increment; when the
(sign-directed) target test passes, clamp to `endValue` and clear the
timer; each tick displays `Math.floor(current)`. Embedded with an explicit
tick budget: the first component lists the displayed values tick by tick,
the second records whether `clearInterval` ran within the budget. -/
def animRun (e inc : ℚ) : Nat → ℚ → List Int × Bool
  | 0, _ => ([], false)
  | n + 1, cur =>
    if (0 < inc ∧ e ≤ cur + inc) ∨ (inc < 0 ∧ cur + inc ≤ e) then
      ([⌊e⌋], true)
    else
      (⌊cur + inc⌋ :: (animRun e inc n (cur + inc)).1,
       (animRun e inc n (cur + inc)).2)

/-- Tick budget used to run the timer loop of the embedding:
`⌈500 / 16⌉ + 1`. Whether the loop actually clears its interval within
this budget is recorded, never assumed. -/
def animTickBudget : Nat := 33

/-- What `animateValue(element, startValue, endValue)` does to the
display: either an immediate assignment of `endValue` with no timer, or a
timer at a 16 ms interval producing a sequence of floored displayed
values. -/
inductive AnimOutcome where
  | immediate (text : ℚ)
  | timer (intervalMs : Nat) (ticks : List Int) (cleared : Bool)
deriving DecidableEq, Repr

/-- The function `animateValue` (part_000 lines 207-228): on `startValue === endValue`
it writes `endValue` and returns without creating a timer; otherwise it
starts the 16 ms interval stepping by `increment`. -/
def animateValue (s e : ℚ) : AnimOutcome :=
  if s = e then .immediate e
  else
    .timer animFrameMs
      (animRun e (animIncrement s e) animTickBudget s).1
      (animRun e (animIncrement s e) animTickBudget s).2

/-! ### Ingestion service, modelled from the spec -/

/-- Modelled from the spec: the backend file `server.py` is not among the
sources (only `backend/README.md` and deployment notes are), so the
`Snapshot` record follows §3 of the spec: `{node_id, worker_count,
reporter_version, timestamp}` plus the spawned/terminated increments §4.1
says the snapshot carries for the monotonic lifetime counters. -/
structure Snapshot where
  node_id : String
  worker_count : Int
  reporter_version : String
  timestamp : Int
  spawned_delta : Nat
  terminated_delta : Nat
deriving DecidableEq, Repr

/-- Modelled from the spec: Ingestion Service state — the Snapshot Store
(latest snapshot per node), the set of already-applied idempotency keys
`(node_id, timestamp)` (§4.1: «idempotency key is `(node_id,
timestamp)`»), and the two monotonic lifetime counters. -/
structure IngestState where
  snapshots : List (String × Snapshot)
  applied_keys : List (String × Int)
  workers_spawned_total : Nat
  workers_terminated_total : Nat
deriving DecidableEq, Repr

/-- Reply of `Ingest`: acknowledgment or validation error (§4.1). -/
inductive IngestResult where
  | ack
  | reject
deriving DecidableEq, Repr

/-- Modelled from the spec: last-write-wins upsert of the Snapshot Store —
a snapshot older than the stored one for the same node does not regress
the displayed current state (§4.1). -/
def upsertSnapshot (s : Snapshot) (store : List (String × Snapshot)) :
    List (String × Snapshot) :=
  match findEntry s.node_id store with
  | some old =>
    if old.timestamp ≤ s.timestamp then
      (s.node_id, s) :: store.filter (fun kv => decide (kv.1 ≠ s.node_id))
    else store
  | none => (s.node_id, s) :: store

/-- Modelled from the spec: `Ingest(snapshot) -> Ack | Reject` (§4.1, §7).
Reject a negative `worker_count` with no state change; treat an
already-applied idempotency key as a StaleDuplicate — a no-op reported as
success; otherwise upsert the store, record the key, and apply the counter
deltas exactly once. -/
def ingest (s : Snapshot) (σ : IngestState) : IngestResult × IngestState :=
  if s.worker_count < 0 then (.reject, σ)
  else if (s.node_id, s.timestamp) ∈ σ.applied_keys then (.ack, σ)
  else
    (.ack,
      { snapshots := upsertSnapshot s σ.snapshots
        applied_keys := (s.node_id, s.timestamp) :: σ.applied_keys
        workers_spawned_total := σ.workers_spawned_total + s.spawned_delta
        workers_terminated_total :=
          σ.workers_terminated_total + s.terminated_delta })

/-! ### Arithmetic of the interpolation loop -/

lemma animIncrement_eq (s e : ℚ) : animIncrement s e = (e - s) * 4 / 125 := by
  rw [animIncrement, animDuration, show (500 : ℚ) / 16 = 125 / 4 by norm_num,
    div_div_eq_mul_div]

lemma animIncrement_pos {s e : ℚ} (h : s < e) : 0 < animIncrement s e := by
  rw [animIncrement_eq]
  have hr : 0 < e - s := sub_pos.mpr h
  positivity

lemma animIncrement_neg {s e : ℚ} (h : e < s) : animIncrement s e < 0 := by
  rw [animIncrement_eq]
  have hr : e - s < 0 := sub_neg.mpr h
  nlinarith

lemma animIncrement_ne {s e : ℚ} (h : s ≠ e) : animIncrement s e ≠ 0 := by
  rcases lt_or_gt_of_ne h with hlt | hgt
  · exact ne_of_gt (animIncrement_pos hlt)
  · exact ne_of_lt (animIncrement_neg hgt)

/-- Before the 32nd tick the sign-directed target test of `animateValue`
fails. -/
lemma animNoStop {s e : ℚ} (hne : s ≠ e) {k : Nat} (hk1 : 1 ≤ k)
    (hk31 : k ≤ 31) :
    ¬ ((0 < animIncrement s e ∧ e ≤ s + (k : ℚ) * animIncrement s e) ∨
       (animIncrement s e < 0 ∧ s + (k : ℚ) * animIncrement s e ≤ e)) := by
  have hkq : (k : ℚ) ≤ 31 := by exact_mod_cast hk31
  have hkq0 : (1 : ℚ) ≤ (k : ℚ) := by exact_mod_cast hk1
  rcases lt_trichotomy s e with hlt | heq | hgt
  · have hpos := animIncrement_pos hlt
    rintro (⟨-, hle⟩ | ⟨hneg, -⟩)
    · rw [animIncrement_eq] at hle
      nlinarith
    · exact absurd hneg (not_lt.mpr hpos.le)
  · exact absurd heq hne
  · have hneg := animIncrement_neg hgt
    rintro (⟨hpos, -⟩ | ⟨-, hle⟩)
    · exact absurd hpos (not_lt.mpr hneg.le)
    · rw [animIncrement_eq] at hle
      nlinarith

/-- At the 32nd tick the target test passes. -/
lemma animStop32 {s e : ℚ} (hne : s ≠ e) :
    (0 < animIncrement s e ∧ e ≤ s + (32 : ℚ) * animIncrement s e) ∨
      (animIncrement s e < 0 ∧ s + (32 : ℚ) * animIncrement s e ≤ e) := by
  rcases lt_trichotomy s e with hlt | heq | hgt
  · refine Or.inl ⟨animIncrement_pos hlt, ?_⟩
    rw [animIncrement_eq]
    nlinarith
  · exact absurd heq hne
  · refine Or.inr ⟨animIncrement_neg hgt, ?_⟩
    rw [animIncrement_eq]
    nlinarith

/-- One tick of the interpolation loop, as a rewriting rule. -/
lemma animRun_succ (e inc : ℚ) (n : Nat) (cur : ℚ) :
    animRun e inc (n + 1) cur =
      if (0 < inc ∧ e ≤ cur + inc) ∨ (inc < 0 ∧ cur + inc ≤ e) then
        ([⌊e⌋], true)
      else
        (⌊cur + inc⌋ :: (animRun e inc n (cur + inc)).1,
         (animRun e inc n (cur + inc)).2) := rfl

/-- Closed form of the interpolation loop: started `m` ticks in with
`31 - m + 2` ticks of budget left, it emits the floors of the linear
interpolants `s + k · increment` for `k = m+1, …, 31`, clamps to
`endValue` on the 32nd tick, and clears the interval. -/
lemma animRun_closed (s e : ℚ) (hne : s ≠ e) :
    ∀ d m : Nat, m + d = 31 →
      animRun e (animIncrement s e) (d + 2) (s + (m : ℚ) * animIncrement s e)
        = ((List.range' (m + 1) d).map
              (fun k : Nat => ⌊s + (k : ℚ) * animIncrement s e⌋) ++ [⌊e⌋],
           true) := by
  intro d
  induction d with
  | zero =>
    intro m hm
    have hm31 : m = 31 := by omega
    subst hm31
    have hstep : s + ((31 : Nat) : ℚ) * animIncrement s e + animIncrement s e
        = s + (32 : ℚ) * animIncrement s e := by push_cast; ring
    rw [show (0 + 2 : Nat) = 1 + 1 from rfl, animRun_succ, hstep,
      if_pos (animStop32 hne)]
    simp [List.range']
  | succ d ih =>
    intro m hm
    have hm' : m + 1 + d = 31 := by omega
    have hstep : s + (m : ℚ) * animIncrement s e + animIncrement s e
        = s + ((m + 1 : Nat) : ℚ) * animIncrement s e := by push_cast; ring
    have hfuel : d + 1 + 2 = (d + 2) + 1 := by omega
    rw [hfuel, animRun_succ, hstep,
      if_neg (animNoStop hne (Nat.le_add_left 1 m) (by omega)),
      ih (m + 1) hm']
    simp [List.range'_succ]

/-! ### Claim C1 — availability state machine -/

/-- Claim C1 counterexample: the claim asserts that two failures separated
by a successful fetch do not enter Degraded; but from the initial state the
run failure–success–failure ends with `apiAvailable = false` and the
banner shown, because the success ran while the state was still Available
and therefore did not reset `consecutiveFailures`. -/
theorem c1_availability_counterexample :
    (runStats initialApiState [.failure, .success, .failure]).apiAvailable
        = false ∧
      (runStats initialApiState [.failure, .success, .failure]).bannerVisible
        = true := by
  decide

/-- Claim C1 (amended): starting Available, one failure leaves the state
Available with the banner hidden; a second consecutive failure enters
Degraded with the banner shown and the fallback source fetched; any single
success while Degraded resets the counter to zero, returns to Available
and clears the banner. However a success while Available leaves the state
— including the failure counter — unchanged, so two failures separated by
a successful fetch do still enter Degraded. -/
theorem c1_availability_amended :
    runStats initialApiState [.failure] = ⟨true, 1, false⟩ ∧
    runStats initialApiState [.failure, .failure] = ⟨false, 2, true⟩ ∧
    (loadStatsAvail ⟨true, 1, false⟩ .failure).2 = true ∧
    (∀ s : ApiState, s.apiAvailable = false →
      loadStatsAvail s .success = (⟨true, 0, false⟩, false)) ∧
    (∀ s : ApiState, s.apiAvailable = true →
      (loadStatsAvail s .success).1 = s) ∧
    (runStats initialApiState [.failure, .success, .failure]).apiAvailable
      = false := by
  refine ⟨by decide, by decide, by decide, ?_, ?_, by decide⟩
  · intro s hs
    simp [loadStatsAvail, hs]
  · intro s hs
    simp [loadStatsAvail, hs]

/-- Witness for C1: the Degraded-exit and Available-success clauses at
concrete states. -/
theorem c1_availability_witness :
    loadStatsAvail ⟨false, 2, true⟩ .success = (⟨true, 0, false⟩, false) ∧
      (loadStatsAvail ⟨true, 1, false⟩ .success).1 = ⟨true, 1, false⟩ :=
  ⟨c1_availability_amended.2.2.2.1 ⟨false, 2, true⟩ rfl,
   c1_availability_amended.2.2.2.2.1 ⟨true, 1, false⟩ rfl⟩

/-! ### Claim C2 — de-duplication by timestamp -/

/-- Claim C2 counterexample: with a strictly increasing history `[1000]`,
cursor `1000`, and a fetched batch whose timestamps normalize to
`[2000, 2000]`, both copies pass the `> lastLoadedTimestamp` test (the
cursor is not advanced inside the loop), so the merged series is
`[1000, 2000, 2000]` — a point whose timestamp equals that of an
already-merged point is appended and the merged timestamps contain a duplicate. -/
theorem c2_dedup_counterexample :
    ((⟨[1000], [1], [1], [0], [0]⟩ : HistoryData).timestamps.Pairwise
        (· < ·)) ∧
    (⟨[1000], [1], [1], [0], [0]⟩ : HistoryData).timestamps.getLast?
        = some 1000 ∧
    ((⟨[2, 2], some [5, 5], some [5, 5], none, none⟩ :
        FetchedHistory).timestamps.map (· * 1000) = [2000, 2000]) ∧
    (mergeHistory ⟨[1000], [1], [1], [0], [0]⟩ 1000
        (normalizeFetched
          ⟨[2, 2], some [5, 5], some [5, 5], none, none⟩)).1.timestamps
        = [1000, 2000, 2000] ∧
    ¬ (mergeHistory ⟨[1000], [1], [1], [0], [0]⟩ 1000
        (normalizeFetched
          ⟨[2, 2], some [5, 5], some [5, 5], none, none⟩)).1.timestamps.Nodup := by
  decide

/-- Claim C2 (amended): the merge appends a fetched point exactly when its
timestamp is strictly greater than the pre-merge `lastLoadedTimestamp`;
under the additional assumption that the timestamps of the fetched batch
are themselves strictly increasing (chronological order without within-batch
duplicates), the merged timestamps stay strictly increasing and therefore
contain no duplicates. -/
theorem c2_dedup_amended (h : HistoryData) (last : Int) (new : HistoryData)
    (hsort : h.timestamps.Pairwise (· < ·))
    (hlast : h.timestamps.getLast? = some last)
    (hnew : new.timestamps.Pairwise (· < ·)) :
    (mergeHistory h last new).1.timestamps
        = h.timestamps ++ new.timestamps.filter (fun t => decide (last < t)) ∧
      (mergeHistory h last new).1.timestamps.Pairwise (· < ·) ∧
      (mergeHistory h last new).1.timestamps.Nodup := by
  refine ⟨mergeHistory_timestamps h last new, ?_, ?_⟩
  · exact mergeHistory_sorted h last new hsort hlast hnew
  · exact (mergeHistory_sorted h last new hsort hlast hnew).imp ne_of_lt

/-- Witness for C2 (amended) at a concrete strictly increasing batch. -/
theorem c2_dedup_witness :
    (mergeHistory ⟨[1000], [1], [1], [0], [0]⟩ 1000
        ⟨[500, 2000, 3000], [4, 5, 6], [4, 5, 6], [0, 0, 0],
          [0, 0, 0]⟩).1.timestamps
        = [1000] ++
          ([500, 2000, 3000] : List Int).filter
            (fun t => decide ((1000 : Int) < t)) ∧
      (mergeHistory ⟨[1000], [1], [1], [0], [0]⟩ 1000
        ⟨[500, 2000, 3000], [4, 5, 6], [4, 5, 6], [0, 0, 0],
          [0, 0, 0]⟩).1.timestamps.Pairwise (· < ·) ∧
      (mergeHistory ⟨[1000], [1], [1], [0], [0]⟩ 1000
        ⟨[500, 2000, 3000], [4, 5, 6], [4, 5, 6], [0, 0, 0],
          [0, 0, 0]⟩).1.timestamps.Nodup :=
  c2_dedup_amended ⟨[1000], [1], [1], [0], [0]⟩ 1000
    ⟨[500, 2000, 3000], [4, 5, 6], [4, 5, 6], [0, 0, 0], [0, 0, 0]⟩
    (by decide) (by decide) (by decide)

/-! ### Claim C3 — cursor advancement and merge-not-replace -/

/-- Claim C3: on a successful fetch with a non-empty payload — (first
load) the whole normalized payload is installed and the cursor set to its
last timestamp; (incremental load adding at least one point) every
previously merged array is a positional prefix of the merged one and the
cursor equals the timestamp of the last point of the merged series;
(incremental load adding nothing) the entire client state is unchanged
while `loadHistory` still reports success. -/
theorem c3_cursor_advancement (st : ClientState) (d : FetchedHistory)
    (hne : d.timestamps ≠ []) :
    (st.historyData.timestamps = [] →
      (loadHistoryOk st d).1.historyData = normalizeFetched d ∧
      (loadHistoryOk st d).1.lastLoadedTimestamp
        = (normalizeFetched d).timestamps.getLastD 0 ∧
      (loadHistoryOk st d).2 = true) ∧
    (st.historyData.timestamps ≠ [] →
      0 < (mergeHistory st.historyData st.lastLoadedTimestamp
            (normalizeFetched d)).2 →
      (loadHistoryOk st d).1.historyData.timestamps.take
          st.historyData.timestamps.length = st.historyData.timestamps ∧
      (loadHistoryOk st d).1.historyData.servers.take
          st.historyData.servers.length = st.historyData.servers ∧
      (loadHistoryOk st d).1.historyData.bots.take
          st.historyData.bots.length = st.historyData.bots ∧
      (loadHistoryOk st d).1.historyData.spawned.take
          st.historyData.spawned.length = st.historyData.spawned ∧
      (loadHistoryOk st d).1.historyData.killed.take
          st.historyData.killed.length = st.historyData.killed ∧
      (loadHistoryOk st d).1.lastLoadedTimestamp
        = (loadHistoryOk st d).1.historyData.timestamps.getLastD 0) ∧
    (st.historyData.timestamps ≠ [] →
      (mergeHistory st.historyData st.lastLoadedTimestamp
            (normalizeFetched d)).2 = 0 →
      (loadHistoryOk st d).1 = st ∧ (loadHistoryOk st d).2 = true) := by
  have hdb : d.timestamps.isEmpty = false := by
    simp [List.isEmpty_iff, hne]
  refine ⟨?_, ?_, ?_⟩
  · intro hfirst
    have hfb : st.historyData.timestamps.isEmpty = true := by
      simp [List.isEmpty_iff, hfirst]
    simp [loadHistoryOk, hdb, hfb]
  · intro hold hadded
    have hob : ¬ st.historyData.timestamps.isEmpty = true := by
      simp [List.isEmpty_iff, hold]
    have hdb₂ : ¬ d.timestamps.isEmpty = true := by simp [hdb]
    simp only [loadHistoryOk, if_neg hdb₂, if_neg hob, if_pos hadded]
    rw [mergeHistory_eq]
    exact ⟨List.take_left _ _, List.take_left _ _, List.take_left _ _,
      List.take_left _ _, List.take_left _ _, trivial⟩
  · intro hold hzero
    have hob : ¬ st.historyData.timestamps.isEmpty = true := by
      simp [List.isEmpty_iff, hold]
    have hdb₂ : ¬ d.timestamps.isEmpty = true := by simp [hdb]
    have hfilter : ((normalizeFetched d).timestamps.filter
        (fun t => decide (st.lastLoadedTimestamp < t))) = [] := by
      rw [mergeHistory_added] at hzero
      exact List.length_eq_zero.mp hzero
    have hkept : keptPairs st.lastLoadedTimestamp
        (normalizeFetched d).timestamps 0 = [] := by
      have h₂ := keptPairs_map_fst st.lastLoadedTimestamp
        (normalizeFetched d).timestamps 0
      rw [hfilter] at h₂
      exact List.map_eq_nil_iff.mp h₂
    have hsame : mergeHistory st.historyData st.lastLoadedTimestamp
        (normalizeFetched d) = (st.historyData, 0) := by
      rw [mergeHistory_eq, hkept]
      simp
    have hzero₂ : ¬ 0 < (mergeHistory st.historyData st.lastLoadedTimestamp
        (normalizeFetched d)).2 := by omega
    simp only [loadHistoryOk, if_neg hdb₂, if_neg hob, if_neg hzero₂, hsame]
    exact ⟨rfl, rfl⟩

/-- Witness for C3 at a concrete state and payload: the incremental branch
that appends one point. -/
theorem c3_cursor_advancement_witness :
    (loadHistoryOk ⟨⟨[1000], [1], [1], [0], [0]⟩, 1000, ⟨[], 0⟩⟩
        ⟨[2], some [7], some [8], none, none⟩).1.historyData.timestamps.take
        ((⟨[1000], [1], [1], [0], [0]⟩ : HistoryData).timestamps.length)
      = (⟨[1000], [1], [1], [0], [0]⟩ : HistoryData).timestamps ∧
    (loadHistoryOk ⟨⟨[1000], [1], [1], [0], [0]⟩, 1000, ⟨[], 0⟩⟩
        ⟨[2], some [7], some [8], none, none⟩).1.lastLoadedTimestamp
      = (loadHistoryOk ⟨⟨[1000], [1], [1], [0], [0]⟩, 1000, ⟨[], 0⟩⟩
          ⟨[2], some [7], some [8], none, none⟩).1.historyData.timestamps.getLastD 0 := by
  have h := (c3_cursor_advancement
    ⟨⟨[1000], [1], [1], [0], [0]⟩, 1000, ⟨[], 0⟩⟩
    ⟨[2], some [7], some [8], none, none⟩ (by decide)).2.1
    (by decide) (by decide)
  exact ⟨h.1, h.2.2.2.2.2⟩

lemma everyNth_one {α : Type} (l : List α) : everyNth 1 l = l :=
  everyNthAux_one 0 l

/-- The four output arrays of a filter result have equal lengths. -/
def goodFiltered (f : Filtered) : Prop :=
  f.servers.length = f.timestamps.length ∧
    f.bots.length = f.timestamps.length ∧
    f.labels.length = f.timestamps.length

/-- On a cache miss `filterDataByPeriod` returns the fresh computation. -/
lemma filterDataByPeriod_miss (period : String) (now : Int) (h : HistoryData)
    (cache : FilterCache) (hmiss : findEntry period cache.entries = none) :
    (filterDataByPeriod period now h cache).1 = freshFilter period now h := by
  simp only [filterDataByPeriod, hmiss, freshFilter]
  by_cases he : h.timestamps.isEmpty = true
  · rw [if_pos he, if_pos he]
  · rw [if_neg he, if_neg he]

/-! ### Claim C4 — windowing exactness -/

/-- Claim C4: on a cache miss, the timestamps `filterDataByPeriod` returns
at time `now` are exactly the stored timestamps at least
`now - duration(W)`, in stored order, thinned to every `stride(W)`-th
point; for the sub-hour windows `10m`, `30m` and `1h` the stride is `1`,
so every in-window point is returned undecimated. -/
theorem c4_windowing_exact (period : String) (now : Int) (h : HistoryData)
    (cache : FilterCache) (hmiss : findEntry period cache.entries = none) :
    (filterDataByPeriod period now h cache).1.timestamps
        = everyNth (decimationFactor period)
            (h.timestamps.filter
              (fun t => decide (now - durationOf period ≤ t))) ∧
      (period = "10m" ∨ period = "30m" ∨ period = "1h" →
        (filterDataByPeriod period now h cache).1.timestamps
          = h.timestamps.filter
              (fun t => decide (now - durationOf period ≤ t))) := by
  have main : (filterDataByPeriod period now h cache).1.timestamps
      = everyNth (decimationFactor period)
          (h.timestamps.filter
            (fun t => decide (now - durationOf period ≤ t))) := by
    rw [filterDataByPeriod_miss period now h cache hmiss, freshFilter]
    by_cases he : h.timestamps.isEmpty = true
    · have hnil : h.timestamps = [] := by simpa [List.isEmpty_iff] using he
      rw [if_pos he, hnil]
      rfl
    · rw [if_neg he, computeFilter, computeLoop_timestamps]
      rfl
  refine ⟨main, ?_⟩
  rintro (rfl | rfl | rfl) <;>
    simpa [everyNth_one, show decimationFactor "10m" = 1 from rfl,
      show decimationFactor "30m" = 1 from rfl,
      show decimationFactor "1h" = 1 from rfl] using main

/-- Witness for C4: the `10m` window over a two-point history with an
empty cache. -/
theorem c4_windowing_exact_witness :
    (filterDataByPeriod "10m" 1000000 ⟨[100, 999000], [3, 4], [5, 6], [], []⟩
        ⟨[], 0⟩).1.timestamps
        = everyNth (decimationFactor "10m")
            (([100, 999000] : List Int).filter
              (fun t => decide ((1000000 : Int) - durationOf "10m" ≤ t))) ∧
      (filterDataByPeriod "10m" 1000000
          ⟨[100, 999000], [3, 4], [5, 6], [], []⟩ ⟨[], 0⟩).1.timestamps
        = ([100, 999000] : List Int).filter
            (fun t => decide ((1000000 : Int) - durationOf "10m" ≤ t)) :=
  ⟨(c4_windowing_exact "10m" 1000000 ⟨[100, 999000], [3, 4], [5, 6], [], []⟩
      ⟨[], 0⟩ rfl).1,
   (c4_windowing_exact "10m" 1000000 ⟨[100, 999000], [3, 4], [5, 6], [], []⟩
      ⟨[], 0⟩ rfl).2 (Or.inl rfl)⟩

/-! ### Claim C5 — deterministic monotone strides -/

/-- Claim C5: the stride is a function of the window name alone (it is
`decimationFactor : String → Nat`, independent of the history), increases
monotonically with window duration over the seven recognized windows, is
`1` for every window no longer than an hour, and a repeated call within
the cache validity window over the same unchanged history returns the
same output as the first call. -/
theorem c5_stride_monotone :
    (∀ p₁ ∈ knownPeriods, ∀ p₂ ∈ knownPeriods,
        durationOf p₁ ≤ durationOf p₂ →
          decimationFactor p₁ ≤ decimationFactor p₂) ∧
      (∀ p ∈ knownPeriods, durationOf p ≤ 60 * 60 * 1000 →
        decimationFactor p = 1) ∧
      (∀ (period : String) (now dt : Int) (h : HistoryData)
          (cache : FilterCache),
        findEntry period cache.entries = none →
        h.timestamps.isEmpty = false →
        dt < 1000 →
        (filterDataByPeriod period (now + dt) h
            (filterDataByPeriod period now h cache).2).1
          = (filterDataByPeriod period now h cache).1) := by
  refine ⟨by decide, by decide, ?_⟩
  intro period now dt h cache hmiss hne hdt
  have hfirst : filterDataByPeriod period now h cache
      = (computeFilter period now h,
         ⟨(period, computeFilter period now h) :: cache.entries, now⟩) := by
    simp only [filterDataByPeriod, hmiss]
    rw [if_neg (by simp [hne])]
  rw [hfirst]
  have hhit : findEntry period
      ((period, computeFilter period now h) :: cache.entries)
      = some (computeFilter period now h) := by
    simp [findEntry]
  simp only [filterDataByPeriod, hhit]
  rw [if_pos (show now + dt - now < 1000 by omega)]

/-- Witness for C5: monotonicity `1h → 1y`, the sub-hour clause at `30m`,
and a repeated call half a second later. -/
theorem c5_stride_monotone_witness :
    decimationFactor "1h" ≤ decimationFactor "1y" ∧
      decimationFactor "30m" = 1 ∧
      (filterDataByPeriod "1h" (1000 + 500) ⟨[0], [1], [1], [], []⟩
          (filterDataByPeriod "1h" 1000 ⟨[0], [1], [1], [], []⟩ ⟨[], 0⟩).2).1
        = (filterDataByPeriod "1h" 1000 ⟨[0], [1], [1], [], []⟩ ⟨[], 0⟩).1 :=
  ⟨c5_stride_monotone.1 "1h" (by decide) "1y" (by decide) (by decide),
   c5_stride_monotone.2.1 "30m" (by decide) (by decide),
   c5_stride_monotone.2.2 "1h" 1000 500 ⟨[0], [1], [1], [], []⟩ ⟨[], 0⟩
     rfl rfl (by decide)⟩

/-! ### Claim C6 — cache invalidation on merge -/

/-- The cache state after a first `1h` filter call at time `1000` over the
one-point history `[0]`. -/
def cacheAfterFirstFilter : FilterCache :=
  (filterDataByPeriod "1h" 1000 ⟨[0], [1], [1], [0], [0]⟩ ⟨[], 0⟩).2

/-- The client state after `loadHistory` merges the new point `1000` (one
second, normalized to milliseconds) on top of that cache. -/
def clientAfterMerge : ClientState :=
  (loadHistoryOk ⟨⟨[0], [1], [1], [0], [0]⟩, 0, cacheAfterFirstFilter⟩
    ⟨[1], some [2], some [2], none, none⟩).1

/-- Claim C6 counterexample: `loadHistory` merges the point `1000` into
the series, yet a `filterDataByPeriod` call 500 ms after the pre-merge
computation still returns the cached pre-merge result `[0]`, which
omits the merged in-window point `1000` — the cache is not invalidated
when new points are merged. -/
theorem c6_cache_counterexample :
    clientAfterMerge.historyData.timestamps = [0, 1000] ∧
      1500 - durationOf "1h" ≤ 1000 ∧
      (filterDataByPeriod "1h" 1500 clientAfterMerge.historyData
          clientAfterMerge.cache).1.timestamps = [0] := by
  decide

/-- Claim C6 (amended): merging new points through `loadHistory` leaves
the filter cache untouched; the cache is invalidated purely by time —
any `filterDataByPeriod` call at least 1000 ms after `lastFilterTime`
recomputes from the current (merged) series, while a call within that
window may still return a pre-merge cached result. -/
theorem c6_cache_amended :
    (∀ (st : ClientState) (d : FetchedHistory),
        (loadHistoryOk st d).1.cache = st.cache) ∧
      (∀ (period : String) (now : Int) (h : HistoryData)
          (cache : FilterCache),
        1000 ≤ now - cache.lastFilterTime →
        (filterDataByPeriod period now h cache).1
          = freshFilter period now h) := by
  constructor
  · intro st d
    rw [loadHistoryOk]
    split
    · rfl
    · dsimp only
      split
      · rfl
      · split
        · rfl
        · rfl
  · intro period now h cache hexp
    rcases hfe : findEntry period cache.entries with _ | f
    · exact filterDataByPeriod_miss period now h cache hfe
    · simp only [filterDataByPeriod, hfe, freshFilter]
      rw [if_neg (by omega)]
      by_cases he : h.timestamps.isEmpty = true
      · rw [if_pos he, if_pos he]
      · rw [if_neg he, if_neg he]

/-- Witness for C6 (amended): the merge of the counterexample scenario
preserves the cache, and a call 1000 ms after the cached computation
recomputes and sees both points. -/
theorem c6_cache_amended_witness :
    clientAfterMerge.cache = cacheAfterFirstFilter ∧
      (filterDataByPeriod "1h" 2000 clientAfterMerge.historyData
          clientAfterMerge.cache).1
        = freshFilter "1h" 2000 clientAfterMerge.historyData := by
  constructor
  · exact c6_cache_amended.1
      ⟨⟨[0], [1], [1], [0], [0]⟩, 0, cacheAfterFirstFilter⟩
      ⟨[1], some [2], some [2], none, none⟩
  · exact c6_cache_amended.2 "1h" 2000 clientAfterMerge.historyData
      clientAfterMerge.cache (by decide)

/-! ### Claim C9 — totality of the filter at the public interface -/

/-- Claim C9: the fresh computation always yields four arrays of equal
lengths with defaulted (`|| 0`) numeric entries — including histories
whose value arrays are shorter than `timestamps`, as `loadHistory` can
produce by substituting `[]` for a missing array; on a cache miss the
public function returns exactly that computation; an empty history yields
the empty object; and an unrecognized period string takes the default
branch: the one-hour cutoff with stride `1`. -/
theorem c9_filter_totality :
    (∀ (period : String) (now : Int) (h : HistoryData),
        goodFiltered (computeFilter period now h)) ∧
      (∀ (period : String) (now : Int) (h : HistoryData)
          (cache : FilterCache),
        findEntry period cache.entries = none →
        (filterDataByPeriod period now h cache).1
          = freshFilter period now h) ∧
      (∀ (period : String) (now : Int) (h : HistoryData),
        h.timestamps = [] → freshFilter period now h = emptyFiltered) ∧
      goodFiltered emptyFiltered ∧
      (∀ s : String, s ∉ knownPeriods →
        durationOf s = 60 * 60 * 1000 ∧ decimationFactor s = 1) ∧
      (∀ d : FetchedHistory, d.servers = none →
        (normalizeFetched d).servers = []) ∧
      (∀ d : FetchedHistory, d.bots = none →
        (normalizeFetched d).bots = []) := by
  refine ⟨?_, filterDataByPeriod_miss, ?_, ⟨rfl, rfl, rfl⟩, ?_, ?_, ?_⟩
  · intro period now h
    exact computeLoop_lengths h period (now - durationOf period)
      (decimationFactor period) h.timestamps 0 0
  · intro period now h hnil
    rw [freshFilter, if_pos (by simp [hnil])]
  · intro s hs
    have hne : s ≠ "10m" ∧ s ≠ "30m" ∧ s ≠ "1h" ∧ s ≠ "1d" ∧ s ≠ "1w" ∧
        s ≠ "1m" ∧ s ≠ "1y" := by
      simpa [knownPeriods] using hs
    obtain ⟨h₁, h₂, h₃, h₄, h₅, h₆, h₇⟩ := hne
    constructor
    · simp [durationOf, h₁, h₂, h₃, h₄, h₅, h₆, h₇]
    · simp [decimationFactor, h₁, h₂, h₃, h₄, h₅, h₆, h₇]
  · intro d hd
    simp [normalizeFetched, hd]
  · intro d hd
    simp [normalizeFetched, hd]

/-- Witness for C9: equal lengths for a ragged history (value arrays
shorter than `timestamps`), the empty-history case, and the default
branch at an unrecognized period string. -/
theorem c9_filter_totality_witness :
    goodFiltered (computeFilter "1h" 1000 ⟨[0, 5, 9], [1], [], [], []⟩) ∧
      freshFilter "xyz" 1000 emptyHistoryData = emptyFiltered ∧
      durationOf "xyz" = 60 * 60 * 1000 ∧ decimationFactor "xyz" = 1 :=
  ⟨c9_filter_totality.1 "1h" 1000 ⟨[0, 5, 9], [1], [], [], []⟩,
   c9_filter_totality.2.2.1 "xyz" 1000 emptyHistoryData rfl,
   c9_filter_totality.2.2.2.2.1 "xyz" (by decide)⟩

/-! ### Claim C7 — ingestion idempotency (spec-modelled) -/

/-- Claim C7: re-ingesting the same snapshot is a no-op — the second
`Ingest(s)` returns the very same result and state as the first, so the
Snapshot Store and the monotonic counters are as after a single ingest,
and the duplicate is acknowledged as success whenever the snapshot is
valid. Settled against the spec-modelled `ingest` (§4.1/§7), the backend
implementation being absent from the sources. -/
theorem c7_ingest_idempotent (s : Snapshot) (σ : IngestState) :
    ingest s (ingest s σ).2 = ingest s σ ∧
      (¬ s.worker_count < 0 → (ingest s (ingest s σ).2).1 = .ack) := by
  by_cases hv : s.worker_count < 0
  · refine ⟨?_, fun hc => absurd hv hc⟩
    simp [ingest, hv]
  · by_cases hk : (s.node_id, s.timestamp) ∈ σ.applied_keys
    · constructor
      · simp [ingest, hv, hk]
      · intro _
        simp [ingest, hv, hk]
    · have h₁ : ingest s σ =
          (.ack,
            { snapshots := upsertSnapshot s σ.snapshots
              applied_keys := (s.node_id, s.timestamp) :: σ.applied_keys
              workers_spawned_total :=
                σ.workers_spawned_total + s.spawned_delta
              workers_terminated_total :=
                σ.workers_terminated_total + s.terminated_delta }) := by
        rw [ingest, if_neg hv, if_neg hk]
      rw [h₁]
      have h₂ : ingest s
          ({ snapshots := upsertSnapshot s σ.snapshots
             applied_keys := (s.node_id, s.timestamp) :: σ.applied_keys
             workers_spawned_total := σ.workers_spawned_total + s.spawned_delta
             workers_terminated_total :=
               σ.workers_terminated_total + s.terminated_delta } : IngestState)
          = (.ack,
             { snapshots := upsertSnapshot s σ.snapshots
               applied_keys := (s.node_id, s.timestamp) :: σ.applied_keys
               workers_spawned_total := σ.workers_spawned_total + s.spawned_delta
               workers_terminated_total :=
                 σ.workers_terminated_total + s.terminated_delta }) := by
        rw [ingest, if_neg hv, if_pos (List.mem_cons_self _ _)]
      exact ⟨h₂, fun _ => by rw [h₂]⟩

/-- Witness for C7 at a concrete snapshot and the empty store. -/
theorem c7_ingest_idempotent_witness :
    ingest ⟨"node-a", 3, "1.0.0", 10, 2, 1⟩
        (ingest ⟨"node-a", 3, "1.0.0", 10, 2, 1⟩ ⟨[], [], 0, 0⟩).2
      = ingest ⟨"node-a", 3, "1.0.0", 10, 2, 1⟩ ⟨[], [], 0, 0⟩ ∧
      (ingest ⟨"node-a", 3, "1.0.0", 10, 2, 1⟩
        (ingest ⟨"node-a", 3, "1.0.0", 10, 2, 1⟩ ⟨[], [], 0, 0⟩).2).1
      = .ack :=
  ⟨(c7_ingest_idempotent ⟨"node-a", 3, "1.0.0", 10, 2, 1⟩ ⟨[], [], 0, 0⟩).1,
   (c7_ingest_idempotent ⟨"node-a", 3, "1.0.0", 10, 2, 1⟩ ⟨[], [], 0, 0⟩).2
     (by decide)⟩

/-! ### Claim C8 — live value presentation -/

/-- Claim C8: with equal start and end values `animateValue` writes the
end value immediately and starts no timer; with different values it runs a
16 ms-interval timer whose ticks display the floors of the linear
interpolants `start + k · increment` (with
`increment = (end - start) / (500 / 16)`), the final tick clamping to the
end value, and the interval is cleared. -/
theorem c8_live_value (s e : ℚ) :
    (s = e → animateValue s e = .immediate e) ∧
      (s ≠ e → animateValue s e =
        .timer animFrameMs
          ((List.range' 1 31).map
              (fun k : Nat => ⌊s + (k : ℚ) * animIncrement s e⌋) ++ [⌊e⌋])
          true) := by
  constructor
  · intro hse
    simp [animateValue, hse]
  · intro hse
    have hc := animRun_closed s e hse 31 0 (by norm_num)
    rw [show s + ((0 : Nat) : ℚ) * animIncrement s e = s by push_cast; ring]
      at hc
    rw [animateValue, if_neg hse, show animTickBudget = 31 + 2 from rfl, hc]

/-- Witness for C8: the immediate case at `3`, and the timer case from `0`
to `125`. -/
theorem c8_live_value_witness :
    animateValue 3 3 = .immediate 3 ∧
      animateValue 0 125 =
        .timer animFrameMs
          ((List.range' 1 31).map
              (fun k : Nat => ⌊(0 : ℚ) + (k : ℚ) * animIncrement 0 125⌋) ++
            [⌊(125 : ℚ)⌋])
          true :=
  ⟨(c8_live_value 3 3).1 rfl, (c8_live_value 0 125).2 (by norm_num)⟩

/-! ### Claim C10 — termination of the interpolation loop -/

/-- Claim C10: for start ≠ end the increment is nonzero and carries the
sign of the range, and the stepping loop terminates — within the tick
budget `⌈500/16⌉ + 1 = 33` the interval is cleared, after exactly 32 ticks,
and the final displayed value is `⌊endValue⌋`. -/
theorem c10_interpolation_terminates (s e : ℚ) (hne : s ≠ e) :
    animIncrement s e ≠ 0 ∧
      (s < e → 0 < animIncrement s e) ∧
      (e < s → animIncrement s e < 0) ∧
      (animRun e (animIncrement s e) animTickBudget s).2 = true ∧
      (animRun e (animIncrement s e) animTickBudget s).1.length = 32 ∧
      (animRun e (animIncrement s e) animTickBudget s).1.getLast?
        = some ⌊e⌋ ∧
      32 ≤ animTickBudget := by
  have hc := animRun_closed s e hne 31 0 (by norm_num)
  rw [show s + ((0 : Nat) : ℚ) * animIncrement s e = s by push_cast; ring]
    at hc
  rw [show animTickBudget = 31 + 2 from rfl]
  refine ⟨animIncrement_ne hne, fun hlt => animIncrement_pos hlt,
    fun hgt => animIncrement_neg hgt, ?_, ?_, ?_, by norm_num⟩
  · rw [hc]
  · rw [hc]
    simp
  · rw [hc]
    simp

/-- Witness for C10 from `0` to `125`. -/
theorem c10_interpolation_terminates_witness :
    animIncrement 0 125 ≠ 0 ∧
      ((0 : ℚ) < 125 → 0 < animIncrement 0 125) ∧
      ((125 : ℚ) < 0 → animIncrement 0 125 < 0) ∧
      (animRun 125 (animIncrement 0 125) animTickBudget 0).2 = true ∧
      (animRun 125 (animIncrement 0 125) animTickBudget 0).1.length = 32 ∧
      (animRun 125 (animIncrement 0 125) animTickBudget 0).1.getLast?
        = some ⌊(125 : ℚ)⌋ ∧
      32 ≤ animTickBudget :=
  c10_interpolation_terminates 0 125 (by norm_num)

end PvpbotStats
